import Mathlib

/-!
Verification development for the DoSOCSv2 utility and licensing-info modules.

The Python sources (`util.py`, `licensingInfo.py`) are shallowly embedded:
pure string manipulation becomes Lean functions on `String` / `List Char`,
Python 2 byte strings become lists of character codes, the SHA-1 digest used
by `gen_ver_code` is implemented bit-faithfully over `Nat` with explicit
`% 2^32` reductions, and code whose behaviour depends on external state
(database cursor, file system) is embedded by passing that state explicitly.
-/

/-- A Python 2 byte string, modelled as the list of its character codes
(all strings handled by this code are ASCII, where this agrees with UTF-8). -/
def strBytes (s : String) : List Nat := s.data.map Char.toNat

/-- `charsStarts s pat` : `pat` is a leading segment of `s`. -/
def charsStarts : List Char → List Char → Bool
  | _, [] => true
  | [], _ :: _ => false
  | c :: cs, p :: ps => c == p && charsStarts cs ps

/-- `charsHasSub pat s` : `pat` occurs contiguously in `s`. -/
def charsHasSub (pat : List Char) : List Char → Bool
  | [] => charsStarts [] pat
  | c :: cs => charsStarts (c :: cs) pat || charsHasSub pat cs

/-- Python's substring test `pat in s`. -/
def pyIn (pat s : String) : Bool := charsHasSub pat.data s.data

/-- First condition of `spdx_filetype` (util.py lines 41-47). -/
def sourceCond (magic_string : String) : Bool :=
  (pyIn " source" magic_string && pyIn " text" magic_string) ||
  (pyIn " script" magic_string && pyIn " text" magic_string) ||
  (pyIn " program" magic_string && pyIn " text" magic_string) ||
  pyIn " shell script" magic_string ||
  pyIn " text executable" magic_string ||
  (pyIn "HTML" magic_string && pyIn "text" magic_string) ||
  (pyIn "XML" magic_string && pyIn "text" magic_string)

/-- Second condition of `spdx_filetype` (util.py lines 49-53). -/
def binaryCond (magic_string : String) : Bool :=
  pyIn " executable" magic_string ||
  pyIn " relocatable" magic_string ||
  pyIn " shared object" magic_string ||
  pyIn " dynamically linked" magic_string ||
  pyIn " ar archive" magic_string

/-- Third condition of `spdx_filetype` (util.py line 55). -/
def archiveCond (magic_string : String) : Bool := pyIn "archive" magic_string

/-- util.py `spdx_filetype`, embedded on the magic probe string: the source
calls the external `magic.from_file(filename)` and then classifies the
returned description string; the classification logic is what is embedded. -/
def spdx_filetype (magic_string : String) : String :=
  if sourceCond magic_string then "SOURCE"
  else if binaryCond magic_string then "BINARY"
  else if archiveCond magic_string then "ARCHIVE"
  else "OTHER"

/-- 32-bit left rotation on `Nat`, result reduced `% 2^32`. -/
def rotl32 (x b : Nat) : Nat := ((x <<< b) ||| (x >>> (32 - b))) % 4294967296

/-- Big-endian 32-bit words from a byte list (SHA-1 chunk decomposition). -/
def bytesToWords : List Nat → List Nat
  | b0 :: b1 :: b2 :: b3 :: rest => (((b0 * 256 + b1) * 256 + b2) * 256 + b3) :: bytesToWords rest
  | _ => []

/-- SHA-1 message-schedule extension: append `fuel` extended words. -/
def sha1ExtendFrom : List Nat → Nat → List Nat
  | w, 0 => w
  | w, fuel + 1 =>
    let n := w.length
    let x := rotl32 ((((w.getD (n - 3) 0) ^^^ (w.getD (n - 8) 0)) ^^^
      (w.getD (n - 14) 0)) ^^^ (w.getD (n - 16) 0)) 1
    sha1ExtendFrom (w ++ [x]) fuel

/-- SHA-1 round function. -/
def sha1F (i b c d : Nat) : Nat :=
  if i < 20 then (b &&& c) ||| ((b ^^^ 4294967295) &&& d)
  else if i < 40 then (b ^^^ c) ^^^ d
  else if i < 60 then ((b &&& c) ||| (b &&& d)) ||| (c &&& d)
  else (b ^^^ c) ^^^ d

/-- SHA-1 round constants. -/
def sha1K (i : Nat) : Nat :=
  if i < 20 then 1518500249
  else if i < 40 then 1859775393
  else if i < 60 then 2400959708
  else 3395469782

/-- SHA-1 compression rounds over the word schedule. -/
def sha1Rounds : Nat → (Nat × Nat × Nat × Nat × Nat) → List Nat → (Nat × Nat × Nat × Nat × Nat)
  | _, st, [] => st
  | i, (a, b, c, d, e), wi :: ws =>
    let temp := (rotl32 a 5 + sha1F i b c d + e + sha1K i + wi) % 4294967296
    sha1Rounds (i + 1) (temp, a, rotl32 b 30, c, d) ws

/-- One SHA-1 block step: extend the 16 words to 80, run 80 rounds, add. -/
def sha1Block (h : Nat × Nat × Nat × Nat × Nat) (chunk : List Nat) : Nat × Nat × Nat × Nat × Nat :=
  let w := sha1ExtendFrom (bytesToWords chunk) 64
  let (h0, h1, h2, h3, h4) := h
  let (a, b, c, d, e) := sha1Rounds 0 (h0, h1, h2, h3, h4) w
  ((h0 + a) % 4294967296, (h1 + b) % 4294967296, (h2 + c) % 4294967296,
   (h3 + d) % 4294967296, (h4 + e) % 4294967296)

/-- Fold `sha1Block` over the 64-byte chunks of the padded message; the
fuel argument (instantiated with the message length) bounds the recursion
structurally. -/
def sha1Chunks : Nat → (Nat × Nat × Nat × Nat × Nat) → List Nat → (Nat × Nat × Nat × Nat × Nat)
  | _, h, [] => h
  | 0, h, _ :: _ => h
  | fuel + 1, h, bs => sha1Chunks fuel (sha1Block h (bs.take 64)) (bs.drop 64)

/-- 64-bit big-endian byte encoding (SHA-1 length field). -/
def beBytes8 (n : Nat) : List Nat :=
  [(n >>> 56) % 256, (n >>> 48) % 256, (n >>> 40) % 256, (n >>> 32) % 256,
   (n >>> 24) % 256, (n >>> 16) % 256, (n >>> 8) % 256, n % 256]

/-- SHA-1 padding: `0x80`, zeros to 56 mod 64, then the bit length. -/
def sha1Pad (m : List Nat) : List Nat :=
  let L := m.length
  m ++ 128 :: (List.replicate ((119 - L % 64) % 64) 0 ++ beBytes8 (8 * L))

/-- A lowercase hexadecimal digit. -/
def hexDigit (n : Nat) : Char := if n < 10 then Char.ofNat (48 + n) else Char.ofNat (87 + n)

/-- Eight lowercase hex digits of a 32-bit word. -/
def hex8 (n : Nat) : List Char :=
  [hexDigit (n >>> 28 % 16), hexDigit (n >>> 24 % 16), hexDigit (n >>> 20 % 16),
   hexDigit (n >>> 16 % 16), hexDigit (n >>> 12 % 16), hexDigit (n >>> 8 % 16),
   hexDigit (n >>> 4 % 16), hexDigit (n % 16)]

/-- `hashlib.sha1(bytes).hexdigest()`: full SHA-1, lowercase hex output. -/
def sha1hexBytes (m : List Nat) : String :=
  let p := sha1Pad m
  let h := sha1Chunks p.length (1732584193, 4023233417, 2562383102, 271733878, 3285377520) p
  ⟨hex8 h.1 ++ hex8 h.2.1 ++ hex8 h.2.2.1 ++ hex8 h.2.2.2.1 ++ hex8 h.2.2.2.2⟩

/-- util.py `gen_ver_code`: drop excluded hashes, sort, concatenate, SHA-1.
The default `excluded_hashes=None` (meaning the empty set) is embedded by
passing `[]` explicitly.  Python 2 sorts byte strings lexicographically by
byte, which on these strings coincides with `String`'s linear order. -/
def gen_ver_code (hashes : List String) (excluded_hashes : List String) : String :=
  let hashes_less_excluded := hashes.filter (fun h => !(excluded_hashes.contains h))
  let hashblob := String.join (List.insertionSort (· ≤ ·) hashes_less_excluded)
  sha1hexBytes (strBytes hashblob)

/-- Reversed-basename extension split.  Given the reversed final path
component, returns `some (e, rest)` when the component ends in `'.'`
followed by the dot-free chars `reverse e` and `rest` (the reversed part
before the dot) holds a non-dot character — mirroring `posixpath.splitext`'s
rule that leading dots of the component never begin an extension. -/
def extSplitRev : List Char → Option (List Char × List Char)
  | [] => none
  | c :: cs =>
    if c = '.' then (if cs.any (fun x => !(x == '.')) then some ([], cs) else none)
    else
      match extSplitRev cs with
      | some (e, rest) => some (c :: e, rest)
      | none => none

/-- `os.path.splitext` (POSIX): split off the final extension of the last
path component. -/
def splitext (p : String) : String × String :=
  let r := p.data.reverse
  let rb := r.takeWhile (fun c => !(c == '/'))
  let rd := r.dropWhile (fun c => !(c == '/'))
  match extSplitRev rb with
  | some (e, rest) => (⟨rd.reverse ++ rest.reverse⟩, ⟨'.' :: e.reverse⟩)
  | none => (p, "")

/-- Python `s.endswith(t)`. -/
def pyEndsWith (s t : String) : Bool := charsStarts s.data.reverse t.data.reverse

/-- util.py `package_friendly_name`: drop the final extension, and a
remaining `.tar` extension as well. -/
def package_friendly_name (package_file_name : String) : String :=
  let newname := (splitext package_file_name).1
  if pyEndsWith newname ".tar" then (splitext newname).1 else newname

/-- Python `str(x)` applied to an optional string field: `None` prints as
`"None"`. -/
def pyStr : Option String → String
  | none => "None"
  | some s => s

/-- licensingInfo.py: the in-memory record; every constructor argument
defaults to `None`, so each field is optional. -/
structure licensingInfo where
  licenseId : Option String
  extractedText : Option String
  licenseName : Option String
  licenseCrossReference : Option (List String)
  licenseComment : Option String
  fileChecksum : Option String

/-- The `for reference in self.licenseCrossReference` loop of
`outputLicensingInfo_TAG`, one appended line per reference. -/
def tagCrossRefLoop : List String → String
  | [] => ""
  | reference :: rest => "LicenseCrossReference: " ++ reference ++ "\n" ++ tagCrossRefLoop rest

/-- licensingInfo.py `outputLicensingInfo_TAG`.  The comment block is kept
exactly under Python's `self.licenseComment != ""` test (true also for
`None`, which prints as `"None"`). -/
def outputLicensingInfo_TAG (self : licensingInfo) : String :=
  "LicenseID: " ++ pyStr self.licenseId ++ "\n" ++
  ("LicenseName: " ++ pyStr self.licenseName ++ "\n" ++
  ((match self.licenseCrossReference with
    | none => ""
    | some refs => tagCrossRefLoop refs) ++
  ("ExtractedText: <text>" ++ pyStr self.extractedText ++ "</text>\n" ++
  (if self.licenseComment == some "" then ""
   else "LicenseComment: <text>" ++ pyStr self.licenseComment ++ "</text>\n"))))

/-- The RDF loop body reads `self.reference`, an attribute `__init__` never
assigns; in CPython this access raises `AttributeError`.  Modelled as the
error value the access produces. -/
def selfDotReference ( _self : licensingInfo) : Except String String :=
  Except.error "AttributeError: licensingInfo instance has no attribute reference"

/-- The `for reference in self.licenseCrossReference` loop of
`outputLicensingInfo_RDF`; each iteration evaluates `str(self.reference)`. -/
def rdfSeeAlsoLoop (self : licensingInfo) : String → List String → Except String String
  | acc, [] => Except.ok acc
  | acc, _reference :: rest =>
    match selfDotReference self with
    | Except.error e => Except.error e
    | Except.ok v =>
      rdfSeeAlsoLoop self (acc ++ "\t\t<rdfs:seeAlso>" ++ v ++ "</rdfs:seeAlso>\n") rest

/-- licensingInfo.py `outputLicensingInfo_RDF`; note the comment test here
is `!= None`, unlike the tag form's `!= ""`. -/
def outputLicensingInfo_RDF (self : licensingInfo) : Except String String :=
  let o := "\t\t<licenseId>" ++ pyStr self.licenseId ++ "</licenseId>\n" ++
           ("\t\t<licenseName>" ++ pyStr self.licenseName ++ "</licenseName>\n" ++
           ("\t\t<extractedText>" ++ pyStr self.extractedText ++ "</extractedText>\n"))
  let afterRefs :=
    match self.licenseCrossReference with
    | none => Except.ok o
    | some refs => rdfSeeAlsoLoop self o refs
  match afterRefs with
  | Except.error e => Except.error e
  | Except.ok o2 =>
    Except.ok (o2 ++ (match self.licenseComment with
      | none => ""
      | some c => "\t\t<rdfs:comment>" ++ c ++ "</rdfs:comment>\n"))

/-- One row of the load query, in SELECT order: license_identifier,
license_name, license_comments, extracted_text, license_cross_reference. -/
abbrev dlaRow :=
  Option String × Option String × Option String × Option String × Option (List String)

/-- licensingInfo.py `getLicensingInfo`.  The database cursor is embedded as
the map `db` from association id to the (optional) fetched row; when
`fetchone` returns no row the record is returned untouched. -/
def getLicensingInfo (self : licensingInfo) (doc_license_association_id : Nat)
    (db : Nat → Option dlaRow) : licensingInfo :=
  match db doc_license_association_id with
  | none => self
  | some q =>
    { self with
      licenseId := q.1
      licenseName := q.2.1
      licenseComment := q.2.2.1
      extractedText := q.2.2.2.1
      licenseCrossReference := q.2.2.2.2 }

/-- Which archive test succeeds on the path given to `tempextract`. -/
inductive PathKind
  | tarArchive
  | zipArchive
  | other

/-- Whether the scoped use of `tempextract` finished normally or raised. -/
inductive Outcome
  | ok
  | raised

/-- `shutil.rmtree`: remove the directory and everything beneath it from the
set of existing paths. -/
def rmtree (d : String) (fs : List String) : List String :=
  fs.filter (fun p => !(p == d || charsStarts p.data (d ++ "/").data))

/-- util.py `tempextract`, embedded as a transformer on the list of existing
file-system paths.  `tempdir` is the directory `mkdtemp` creates; `kind`
says which archive test succeeds; `members` are the archive members;
`openOk` / `bodyOk` say whether the tar open-and-extract steps and the
caller's scoped body complete without raising.  The zip branch raises
unconditionally (the code calls `zipfile.open`, which does not exist:
AttributeError), and when neither test succeeds the generator yields
nothing, so `contextmanager` raises RuntimeError; on every path the
`finally` block runs `rmtree` on the scratch directory. -/
def tempextractRun (fs : List String) (tempdir : String) (kind : PathKind)
    (members : List String) (openOk bodyOk : Bool) : Outcome × List String :=
  let fs1 := tempdir :: fs
  let step : Outcome × List String :=
    match kind with
    | PathKind.tarArchive =>
      if openOk then
        let fs2 := members.map (fun p => tempdir ++ "/" ++ p) ++ fs1
        if bodyOk then (Outcome.ok, fs2) else (Outcome.raised, fs2)
      else (Outcome.raised, fs1)
    | PathKind.zipArchive => (Outcome.raised, fs1)
    | PathKind.other => (Outcome.raised, fs1)
  (step.1, rmtree tempdir step.2)

/-- Split a character list at newline characters, like Python
`s.split(chr(10))`: the lines of a rendered output. -/
def splitLines : List Char → List (List Char)
  | [] => [[]]
  | c :: rest =>
    if c = '\n' then [] :: splitLines rest
    else
      match splitLines rest with
      | l :: ls => (c :: l) :: ls
      | [] => [[c]]

/-- The lines of a string. -/
def strLines (s : String) : List (List Char) := splitLines s.data

/-! ## Helper lemmas -/

theorem charsStarts_append_self (p r : List Char) : charsStarts (p ++ r) p = true := by
  induction p with
  | nil => cases r <;> rfl
  | cons c cs ih => simp [charsStarts, ih]

theorem charsStarts_short_false (a pat x : List Char)
    (h : charsStarts a (pat.take a.length) = false) : charsStarts (a ++ x) pat = false := by
  induction a generalizing pat with
  | nil => simp [charsStarts] at h
  | cons c cs ih =>
    cases pat with
    | nil => simp [charsStarts] at h
    | cons p ps =>
      simp only [List.length_cons, List.take_succ_cons, charsStarts,
        Bool.and_eq_false_iff] at h
      rcases h with h | h
      · simp [charsStarts, h]
      · simp [charsStarts, ih ps h]

theorem splitLines_peel (a rest : List Char) (h : ∀ x ∈ a, ¬x = '\n') :
    splitLines (a ++ '\n' :: rest) = a :: splitLines rest := by
  induction a with
  | nil => simp [splitLines]
  | cons c cs ih =>
    have hc : ¬c = '\n' := h c (by simp)
    have ih' := ih (fun x hx => h x (by simp [hx]))
    simp [splitLines, hc, ih']

/-! ## Claims about `gen_ver_code` -/

/-- C1: For every finite collection of hash strings and every permutation of
it, `gen_ver_code` returns the same digest (same exclusion set): the
verification code is invariant under reordering of its input. -/
theorem gen_ver_code_perm (H Hp E : List String) (h : H.Perm Hp) :
    gen_ver_code Hp E = gen_ver_code H E := by
  have hf : (List.filter (fun x => !(E.contains x)) Hp).Perm
      (List.filter (fun x => !(E.contains x)) H) := h.symm.filter _
  have hs : List.insertionSort (· ≤ ·) (List.filter (fun x => !(E.contains x)) Hp)
      = List.insertionSort (· ≤ ·) (List.filter (fun x => !(E.contains x)) H) :=
    List.eq_of_perm_of_sorted
      (((List.perm_insertionSort _ _).trans hf).trans (List.perm_insertionSort _ _).symm)
      (List.sorted_insertionSort _ _) (List.sorted_insertionSort _ _)
  simp only [gen_ver_code, hs]

/-- Witness for C1 at a concrete permutation. -/
theorem gen_ver_code_perm_witness :
    (["b", "a"] : List String).Perm ["a", "b"] ∧
      gen_ver_code ["a", "b"] [] = gen_ver_code ["b", "a"] [] :=
  ⟨by decide, gen_ver_code_perm ["b", "a"] ["a", "b"] [] (by decide)⟩

/-- C2: excluding while generating equals filtering the excluded hashes out
first and then generating with an empty exclusion set. -/
theorem gen_ver_code_filter_first (H E : List String) :
    gen_ver_code H E = gen_ver_code (H.filter (fun x => !(E.contains x))) [] := by
  simp only [gen_ver_code]
  have : List.filter (fun x => !(([] : List String).contains x))
      (List.filter (fun x => !(E.contains x)) H)
      = List.filter (fun x => !(E.contains x)) H := by
    simp [List.contains]
  rw [this]

set_option maxRecDepth 10000 in
/-- C3: an input that is empty after exclusion yields the SHA-1 digest of
the empty string, the fixed constant. -/
theorem gen_ver_code_empty (H E : List String)
    (h : H.filter (fun x => !(E.contains x)) = []) :
    gen_ver_code H E = "da39a3ee5e6b4b0d3255bfef95601890afd80709" := by
  simp only [gen_ver_code, h]
  decide

/-- Witness for C3 at a concrete fully-excluded input. -/
theorem gen_ver_code_empty_witness :
    (["a"] : List String).filter (fun x => !((["a"] : List String).contains x)) = [] ∧
      gen_ver_code ["a"] ["a"] = "da39a3ee5e6b4b0d3255bfef95601890afd80709" :=
  ⟨by decide, gen_ver_code_empty ["a"] ["a"] (by decide)⟩

/-! ## Claims about `spdx_filetype` -/

/-- C4: the classifier maps the four probe strings to BINARY, OTHER,
SOURCE and ARCHIVE respectively. -/
theorem spdx_filetype_probes :
    spdx_filetype "ELF 64-bit LSB executable, dynamically linked" = "BINARY" ∧
    spdx_filetype "ASCII text" = "OTHER" ∧
    spdx_filetype "POSIX shell script, ASCII text executable" = "SOURCE" ∧
    spdx_filetype "Zip archive data" = "ARCHIVE" := by
  decide

/-- C5: the classifier always returns one of the four categories; rules are
applied first-match-wins in the order SOURCE, BINARY, ARCHIVE (so a probe
matching a BINARY pattern such as " ar archive" and no SOURCE pattern is
BINARY even though it contains "archive"), and a probe matching no pattern
yields OTHER. -/
theorem spdx_filetype_total (s : String) :
    (spdx_filetype s = "SOURCE" ∨ spdx_filetype s = "BINARY" ∨
      spdx_filetype s = "ARCHIVE" ∨ spdx_filetype s = "OTHER") ∧
    (sourceCond s = false → binaryCond s = true → spdx_filetype s = "BINARY") ∧
    (sourceCond s = false → binaryCond s = false → archiveCond s = false →
      spdx_filetype s = "OTHER") := by
  cases h1 : sourceCond s <;> cases h2 : binaryCond s <;> cases h3 : archiveCond s <;>
    simp [spdx_filetype, h1, h2, h3]

/-- Witness for C5 at " ar archive" probes. -/
theorem spdx_filetype_total_witness :
    sourceCond "current ar archive" = false ∧ binaryCond "current ar archive" = true ∧
      spdx_filetype "current ar archive" = "BINARY" :=
  ⟨by decide, by decide,
    (spdx_filetype_total "current ar archive").2.1 (by decide) (by decide)⟩

/-! ## Claims about the licensingInfo record -/

/-- C7: the RDF serializer cannot emit a seeAlso element carrying the
cross-reference's text: its loop body reads the never-assigned attribute
`self.reference`, so any record with a cross-reference makes the serializer
raise AttributeError instead of producing output. -/
theorem outputLicensingInfo_RDF_raises :
    outputLicensingInfo_RDF
      ⟨some "LicenseRef-1", some "extracted", some "Name",
        some ["http://example.org"], some "a comment", none⟩
      = Except.error "AttributeError: licensingInfo instance has no attribute reference" :=
  rfl

/-- C8: a load whose association lookup returns no row raises no error and
leaves every field of the record unchanged. -/
theorem getLicensingInfo_soft_miss (self : licensingInfo) (i : Nat)
    (db : Nat → Option dlaRow) (h : db i = none) :
    (getLicensingInfo self i db).licenseId = self.licenseId ∧
    (getLicensingInfo self i db).licenseName = self.licenseName ∧
    (getLicensingInfo self i db).licenseComment = self.licenseComment ∧
    (getLicensingInfo self i db).extractedText = self.extractedText ∧
    (getLicensingInfo self i db).licenseCrossReference = self.licenseCrossReference ∧
    (getLicensingInfo self i db).fileChecksum = self.fileChecksum := by
  simp [getLicensingInfo, h]

/-- Witness for C8 on a concrete record and an empty database. -/
theorem getLicensingInfo_soft_miss_witness :
    ((fun _ : Nat => (none : Option dlaRow)) 3 = none) ∧
      (getLicensingInfo
          ⟨some "id0", some "t0", some "n0", some ["r0"], some "c0", some "f0"⟩
          3 (fun _ => none)).licenseId = some "id0" :=
  ⟨rfl, (getLicensingInfo_soft_miss
      ⟨some "id0", some "t0", some "n0", some ["r0"], some "c0", some "f0"⟩
      3 (fun _ => none) rfl).1⟩

/-! ## Claim about `tempextract` -/

theorem rmtree_removes (d : String) (fs : List String) :
    ((rmtree d fs).contains d
      || !((rmtree d fs).all (fun p => !(charsStarts p.data (d ++ "/").data)))) = false := by
  induction fs with
  | nil => rfl
  | cons x xs ih =>
    simp only [rmtree, List.filter] at ih ⊢
    cases hx : (x == d || charsStarts x.data (d ++ "/").data) with
    | true =>
      simp only [Bool.not_true, hx]
      exact ih
    | false =>
      rcases Bool.or_eq_false_iff.mp hx with ⟨h1, h2⟩
      have h1' : (d == x) = false := by
        simp only [beq_eq_false_iff_ne] at h1 ⊢
        exact fun h => h1 h.symm
      simp only [Bool.not_false, hx, List.contains_cons, List.all_cons, h1', h2,
        Bool.false_or, Bool.not_false, Bool.true_and]
      exact ih

theorem rmtree_contains (d : String) (fs : List String) :
    (rmtree d fs).contains d = false :=
  (Bool.or_eq_false_iff.mp (rmtree_removes d fs)).1

theorem rmtree_all (d : String) (fs : List String) :
    (rmtree d fs).all (fun p => !(charsStarts p.data (d ++ "/").data)) = true := by
  have h := (Bool.or_eq_false_iff.mp (rmtree_removes d fs)).2
  simpa using h

/-- C9: on every control path of `tempextract` — tar archive with the open
and extraction steps and the caller body succeeding or raising, the
(always-raising) zip branch, and a path that is neither — the final state
holds neither the scratch directory nor any path beneath it. -/
theorem tempextract_cleanup (fs : List String) (tempdir : String) (kind : PathKind)
    (members : List String) (openOk bodyOk : Bool) :
    ((tempextractRun fs tempdir kind members openOk bodyOk).2.contains tempdir = false) ∧
    ((tempextractRun fs tempdir kind members openOk bodyOk).2.all
        (fun p => !(charsStarts p.data (tempdir ++ "/").data)) = true) := by
  cases kind <;> cases openOk <;> cases bodyOk <;>
    exact ⟨rmtree_contains tempdir _, rmtree_all tempdir _⟩

/-! ## Claims about `package_friendly_name` -/

theorem takeWhile_append_all (p : Char → Bool) (a b : List Char)
    (h : ∀ x ∈ a, p x = true) : (a ++ b).takeWhile p = a ++ b.takeWhile p := by
  induction a with
  | nil => rfl
  | cons c cs ih =>
    have hc := h c (by simp)
    simp [List.takeWhile_cons, hc, ih (fun x hx => h x (by simp [hx]))]

theorem dropWhile_append_all (p : Char → Bool) (a b : List Char)
    (h : ∀ x ∈ a, p x = true) : (a ++ b).dropWhile p = b.dropWhile p := by
  induction a with
  | nil => rfl
  | cons c cs ih =>
    have hc := h c (by simp)
    simp [List.dropWhile_cons, hc, ih (fun x hx => h x (by simp [hx]))]

theorem extSplitRev_append (e cs : List Char) (he : ∀ x ∈ e, ¬x = '.')
    (hcs : cs.any (fun x => !(x == '.')) = true) :
    extSplitRev (e ++ '.' :: cs) = some (e, cs) := by
  induction e with
  | nil => simp [extSplitRev, hcs]
  | cons c cs' ih =>
    have hc : ¬c = '.' := he c (by simp)
    simp [extSplitRev, hc, ih (fun x hx => he x (by simp [hx]))]

theorem splitext_dotfree (N ext : String)
    (hdot : ∀ x ∈ ext.data, ¬x = '.') (hsep : ∀ x ∈ ext.data, ¬x = '/')
    (hbase : (N.data.reverse.takeWhile (fun c => !(c == '/'))).any
      (fun c => !(c == '.')) = true) :
    splitext (N ++ "." ++ ext) = (N, "." ++ ext) := by
  have hrev : (N ++ "." ++ ext).data.reverse = ext.data.reverse ++ '.' :: N.data.reverse := by
    simp [String.data_append]
  have hp : ∀ x ∈ ext.data.reverse, (fun c => !(c == '/')) x = true := by
    intro x hx
    simp only [List.mem_reverse] at hx
    simp [hsep x hx]
  have htake : (N ++ "." ++ ext).data.reverse.takeWhile (fun c => !(c == '/'))
      = ext.data.reverse ++ '.' :: N.data.reverse.takeWhile (fun c => !(c == '/')) := by
    rw [hrev, takeWhile_append_all _ _ _ hp]
    simp [List.takeWhile_cons]
  have hdrop : (N ++ "." ++ ext).data.reverse.dropWhile (fun c => !(c == '/'))
      = N.data.reverse.dropWhile (fun c => !(c == '/')) := by
    rw [hrev, dropWhile_append_all _ _ _ hp]
    simp [List.dropWhile_cons]
  have hext : extSplitRev (ext.data.reverse ++ '.' ::
        N.data.reverse.takeWhile (fun c => !(c == '/')))
      = some (ext.data.reverse, N.data.reverse.takeWhile (fun c => !(c == '/'))) := by
    apply extSplitRev_append
    · intro x hx
      exact hdot x (List.mem_reverse.mp hx)
    · exact hbase
  simp only [splitext, htake, hdrop, hext]
  apply Prod.ext
  · apply String.ext
    show (N.data.reverse.dropWhile (fun c => !(c == '/'))).reverse ++
        (N.data.reverse.takeWhile (fun c => !(c == '/'))).reverse = N.data
    rw [← List.reverse_append, List.takeWhile_append_dropWhile, List.reverse_reverse]
  · apply String.ext
    show '.' :: ext.data.reverse.reverse = ("." ++ ext).data
    simp [String.data_append]

/-- C10 (amended): `package_friendly_name (N ++ ".tar." ++ ext) = N` holds
when `ext` holds no dot and no slash and the final path component of `N`
holds a non-dot character; under the same conditions a name with a single
extension whose root does not end in ".tar" loses only that extension. -/
theorem package_friendly_name_strips (N ext : String)
    (hdot : ∀ x ∈ ext.data, ¬x = '.')
    (hsep : ∀ x ∈ ext.data, ¬x = '/')
    (hbase : (N.data.reverse.takeWhile (fun c => !(c == '/'))).any
      (fun c => !(c == '.')) = true) :
    package_friendly_name (N ++ ".tar." ++ ext) = N ∧
    (pyEndsWith N ".tar" = false → package_friendly_name (N ++ "." ++ ext) = N) := by
  have hrevtar : (N ++ ".tar").data.reverse = 'r' :: 'a' :: 't' :: '.' :: N.data.reverse := by
    simp [String.data_append]
  have hbase' : ((N ++ ".tar").data.reverse.takeWhile (fun c => !(c == '/'))).any
      (fun c => !(c == '.')) = true := by
    rw [hrevtar]
    have hr : (('r' : Char) == '/') = false := rfl
    have hr2 : (('r' : Char) == '.') = false := rfl
    simp [List.takeWhile_cons, List.any_cons, hr, hr2]
  have htarsplit : N ++ ".tar" = N ++ "." ++ "tar" := by
    apply String.ext
    simp only [String.data_append, List.append_assoc]
    rfl
  have hsx2 : splitext (N ++ ".tar") = (N, ".tar") := by
    rw [htarsplit]
    have h1 : ∀ x ∈ ("tar" : String).data, ¬x = '.' := by decide
    have h2 : ∀ x ∈ ("tar" : String).data, ¬x = '/' := by decide
    rw [splitext_dotfree N "tar" h1 h2 hbase]
    have : ("." ++ "tar" : String) = ".tar" := rfl
    rw [this]
  have hends : pyEndsWith (N ++ ".tar") ".tar" = true := by
    unfold pyEndsWith
    rw [hrevtar]
    have : (".tar" : String).data.reverse = ['r', 'a', 't', '.'] := rfl
    rw [this]
    exact charsStarts_append_self ['r', 'a', 't', '.'] N.data.reverse
  constructor
  · have hEq : N ++ ".tar." ++ ext = (N ++ ".tar") ++ "." ++ ext := by
      apply String.ext
      simp only [String.data_append, List.append_assoc]
      rfl
    have hsx1 : splitext (N ++ ".tar." ++ ext) = (N ++ ".tar", "." ++ ext) := by
      rw [hEq]
      exact splitext_dotfree (N ++ ".tar") ext hdot hsep hbase'
    unfold package_friendly_name
    rw [hsx1]
    simp only [hends, if_true, hsx2]
  · intro hne
    have hsx : splitext (N ++ "." ++ ext) = (N, "." ++ ext) :=
      splitext_dotfree N ext hdot hsep hbase
    unfold package_friendly_name
    rw [hsx]
    simp only [hne, Bool.false_eq_true, if_false]

/-- C10 counterexample: the claim fails as stated for every base name and
extension — an empty base name, an extension holding a dot, and an
extension holding a slash each break it. -/
theorem package_friendly_name_cex :
    package_friendly_name ("" ++ ".tar." ++ "gz") ≠ "" ∧
    package_friendly_name ("pkg" ++ ".tar." ++ "a.b") ≠ "pkg" ∧
    package_friendly_name ("pkg" ++ ".tar." ++ "g/z") ≠ "pkg" := by
  decide

/-- Witness for the amended C10 at `pkg-1.0.tar.gz`. -/
theorem package_friendly_name_strips_witness :
    (∀ x ∈ ("gz" : String).data, ¬x = '.') ∧ (∀ x ∈ ("gz" : String).data, ¬x = '/') ∧
    ((("pkg-1.0" : String).data.reverse.takeWhile (fun c => !(c == '/'))).any
        (fun c => !(c == '.')) = true) ∧
    pyEndsWith "pkg-1.0" ".tar" = false ∧
    package_friendly_name ("pkg-1.0" ++ ".tar." ++ "gz") = "pkg-1.0" ∧
    package_friendly_name ("pkg-1.0" ++ "." ++ "gz") = "pkg-1.0" :=
  ⟨by decide, by decide, by decide, by decide,
    (package_friendly_name_strips "pkg-1.0" "gz" (by decide) (by decide) (by decide)).1,
    (package_friendly_name_strips "pkg-1.0" "gz" (by decide) (by decide) (by decide)).2
      (by decide)⟩

/-! ## Claim C6: tag serializer lines -/

theorem no_nl_append {a b : List Char} (ha : ∀ x ∈ a, ¬x = '\n') (hb : ∀ x ∈ b, ¬x = '\n') :
    ∀ x ∈ a ++ b, ¬x = '\n' := by
  intro x hx
  rcases List.mem_append.mp hx with h | h
  · exact ha x h
  · exact hb x h

theorem filter_map_true (refs : List String) (f : String → List Char) (p : List Char → Bool)
    (h : ∀ r ∈ refs, p (f r) = true) : (refs.map f).filter p = refs.map f := by
  induction refs with
  | nil => rfl
  | cons r rs ih =>
    simp [List.filter_cons, h r (by simp), ih (fun a ha => h a (by simp [ha]))]

theorem filter_map_false (refs : List String) (f : String → List Char) (p : List Char → Bool)
    (h : ∀ r ∈ refs, p (f r) = false) : (refs.map f).filter p = [] := by
  induction refs with
  | nil => rfl
  | cons r rs ih =>
    simp [List.filter_cons, h r (by simp), ih (fun a ha => h a (by simp [ha]))]

theorem tagCrossRefLoop_lines (refs : List String) (rest : List Char)
    (hR : ∀ r ∈ refs, ∀ x ∈ r.data, ¬x = '\n') :
    splitLines ((tagCrossRefLoop refs).data ++ rest)
      = refs.map (fun r => "LicenseCrossReference: ".data ++ r.data) ++ splitLines rest := by
  induction refs with
  | nil => simp [tagCrossRefLoop]
  | cons r rs ih =>
    have hnl : ("\n" : String).data = ['\n'] := rfl
    have hdata : (tagCrossRefLoop (r :: rs)).data
        = ("LicenseCrossReference: ".data ++ r.data) ++ '\n' :: (tagCrossRefLoop rs).data := by
      simp [tagCrossRefLoop, String.data_append, hnl]
    rw [hdata]
    have hshape : (("LicenseCrossReference: ".data ++ r.data) ++ '\n' :: (tagCrossRefLoop rs).data)
        ++ rest
        = ("LicenseCrossReference: ".data ++ r.data)
          ++ '\n' :: ((tagCrossRefLoop rs).data ++ rest) := by
      simp [List.append_assoc]
    rw [hshape, splitLines_peel _ _ (no_nl_append (by decide) (hR r (by simp))),
      ih (fun a ha => hR a (by simp [ha]))]
    simp

/-- C6: when every serialized field is newline-free, the tag output's lines
beginning with "LicenseCrossReference: " are exactly one line per element of
licenseCrossReference, in order and carrying that element's text, and a
"LicenseComment: " line is present (exactly once) iff licenseComment is not
the empty string. -/
theorem outputLicensingInfo_TAG_lines (rec : licensingInfo) (refs : List String)
    (hrefs : rec.licenseCrossReference = some refs)
    (hId : ∀ x ∈ (pyStr rec.licenseId).data, ¬x = '\n')
    (hName : ∀ x ∈ (pyStr rec.licenseName).data, ¬x = '\n')
    (hText : ∀ x ∈ (pyStr rec.extractedText).data, ¬x = '\n')
    (hCom : ∀ x ∈ (pyStr rec.licenseComment).data, ¬x = '\n')
    (hR : ∀ r ∈ refs, ∀ x ∈ r.data, ¬x = '\n') :
    (strLines (outputLicensingInfo_TAG rec)).filter
        (fun l => charsStarts l "LicenseCrossReference: ".data)
      = refs.map (fun r => "LicenseCrossReference: ".data ++ r.data) ∧
    (strLines (outputLicensingInfo_TAG rec)).filter
        (fun l => charsStarts l "LicenseComment: ".data)
      = (if rec.licenseComment = some "" then []
         else ["LicenseComment: <text>".data ++
           ((pyStr rec.licenseComment).data ++ "</text>".data)]) := by
  have hnl : ("\n" : String).data = ['\n'] := rfl
  have het : ("</text>\n" : String).data = "</text>".data ++ ['\n'] := rfl
  have hemp : ("" : String).data = ([] : List Char) := rfl
  have hlines : strLines (outputLicensingInfo_TAG rec)
      = ("LicenseID: ".data ++ (pyStr rec.licenseId).data) ::
        ("LicenseName: ".data ++ (pyStr rec.licenseName).data) ::
        (refs.map (fun r => "LicenseCrossReference: ".data ++ r.data) ++
          (("ExtractedText: <text>".data ++
              ((pyStr rec.extractedText).data ++ "</text>".data)) ::
            (if rec.licenseComment == some "" then [[]]
             else ("LicenseComment: <text>".data ++
               ((pyStr rec.licenseComment).data ++ "</text>".data)) :: [[]]))) := by
    cases hc : (rec.licenseComment == some "") with
    | true =>
      have hdata : (outputLicensingInfo_TAG rec).data
          = ("LicenseID: ".data ++ (pyStr rec.licenseId).data) ++ '\n' ::
            (("LicenseName: ".data ++ (pyStr rec.licenseName).data) ++ '\n' ::
              ((tagCrossRefLoop refs).data ++
                (("ExtractedText: <text>".data ++
                  ((pyStr rec.extractedText).data ++ "</text>".data)) ++ '\n' :: []))) := by
        simp [outputLicensingInfo_TAG, hrefs, hc, String.data_append, hnl, het, hemp,
          List.append_assoc]
      unfold strLines
      rw [hdata, splitLines_peel _ _ (no_nl_append (by decide) hId),
        splitLines_peel _ _ (no_nl_append (by decide) hName),
        tagCrossRefLoop_lines refs _ hR,
        splitLines_peel _ _ (no_nl_append (by decide) (no_nl_append hText (by decide)))]
      simp [splitLines]
    | false =>
      have hdata : (outputLicensingInfo_TAG rec).data
          = ("LicenseID: ".data ++ (pyStr rec.licenseId).data) ++ '\n' ::
            (("LicenseName: ".data ++ (pyStr rec.licenseName).data) ++ '\n' ::
              ((tagCrossRefLoop refs).data ++
                (("ExtractedText: <text>".data ++
                  ((pyStr rec.extractedText).data ++ "</text>".data)) ++ '\n' ::
                  (("LicenseComment: <text>".data ++
                    ((pyStr rec.licenseComment).data ++ "</text>".data)) ++ '\n' :: [])))) := by
        simp [outputLicensingInfo_TAG, hrefs, hc, String.data_append, hnl, het, hemp,
          List.append_assoc]
      unfold strLines
      rw [hdata, splitLines_peel _ _ (no_nl_append (by decide) hId),
        splitLines_peel _ _ (no_nl_append (by decide) hName),
        tagCrossRefLoop_lines refs _ hR,
        splitLines_peel _ _ (no_nl_append (by decide) (no_nl_append hText (by decide))),
        splitLines_peel _ _ (no_nl_append (by decide) (no_nl_append hCom (by decide)))]
      simp [splitLines]
  rw [hlines]





  have fmap : (refs.map (fun r => "LicenseCrossReference: ".data ++ r.data)).filter
      (fun l => charsStarts l "LicenseCrossReference: ".data)
      = refs.map (fun r => "LicenseCrossReference: ".data ++ r.data) :=
    filter_map_true _ _ _ (fun r _ => charsStarts_append_self _ _)



  have g4 : charsStarts ("LicenseComment: <text>".data ++
      ((pyStr rec.licenseComment).data ++ "</text>".data))
      "LicenseComment: ".data = true := by
    have hsp : ("LicenseComment: <text>" : String).data
        = "LicenseComment: ".data ++ "<text>".data := rfl
    rw [hsp, List.append_assoc]
    exact charsStarts_append_self _ _

  have gmap : (refs.map (fun r => "LicenseCrossReference: ".data ++ r.data)).filter
      (fun l => charsStarts l "LicenseComment: ".data) = [] :=
    filter_map_false _ _ _
      (fun r _ => charsStarts_short_false _ _ _ (by decide))
  cases hc : (rec.licenseComment == some "") with
  | true =>
    have hcp : rec.licenseComment = some "" := eq_of_beq hc
    constructor
    · simp [charsStarts, List.filter_cons, List.filter_append, fmap, hc]
    · simp [charsStarts, List.filter_cons, List.filter_append, gmap, hc, hcp]
  | false =>
    have hcp : ¬rec.licenseComment = some "" := by
      intro h
      rw [h] at hc
      simp at hc
    constructor
    · simp [charsStarts, List.filter_cons, List.filter_append, fmap, hc]
    · simp [charsStarts, List.filter_cons, List.filter_append, gmap, g4, hc, hcp]

/-- Witness for C6: two cross-references and an empty comment give exactly
the two cross-reference lines and no comment line. -/
theorem outputLicensingInfo_TAG_lines_witness :
    ((⟨some "L1", some "tb", some "ML", some ["http://a", "http://b"], some "", some "f"⟩ :
        licensingInfo).licenseCrossReference = some ["http://a", "http://b"]) ∧
    (strLines (outputLicensingInfo_TAG
          ⟨some "L1", some "tb", some "ML", some ["http://a", "http://b"], some "", some "f"⟩)).filter
        (fun l => charsStarts l "LicenseCrossReference: ".data)
      = ["LicenseCrossReference: ".data ++ "http://a".data,
         "LicenseCrossReference: ".data ++ "http://b".data] ∧
    (strLines (outputLicensingInfo_TAG
          ⟨some "L1", some "tb", some "ML", some ["http://a", "http://b"], some "", some "f"⟩)).filter
        (fun l => charsStarts l "LicenseComment: ".data) = [] :=
  ⟨rfl,
    (outputLicensingInfo_TAG_lines
      ⟨some "L1", some "tb", some "ML", some ["http://a", "http://b"], some "", some "f"⟩
      ["http://a", "http://b"] rfl (by decide) (by decide) (by decide) (by decide)
      (by decide)).1,
    (outputLicensingInfo_TAG_lines
      ⟨some "L1", some "tb", some "ML", some ["http://a", "http://b"], some "", some "f"⟩
      ["http://a", "http://b"] rfl (by decide) (by decide) (by decide) (by decide)
      (by decide)).2⟩
